import Mathlib

/-!
Shallow embedding of the accounting and payout core of the Yellow Money Heist
application (app.py): the data model (User, Investment, Transaction, Payout),
the weekly payout engine (calculate_weekly_payout, process_weekly_payouts),
the request operations (register, invest, complete_deposit, withdraw) and the
balance aggregation (available_balance).

Modelling conventions:
- Timestamps are seconds since an epoch, as Nat; timedelta(days=7) is 7 * 86400.
- Monetary amounts (Float columns in the source) are exact rationals.
- Randomness (secrets.token_hex for transaction references, uuid4 for referral
  codes) is modelled by a fresh counter `rng` in the state; each draw renders
  the counter and bumps it, so distinct draws give distinct strings.
- Database autoincrement primary keys are modelled by the counters
  next_user_id, next_inv_id, next_tx_id.  Payout rows carry no id of their own
  because the source never reads one.
- Fallible request handlers return Except; an error means the handler bailed
  out before committing, so no new state is produced.
-/

structure User where
  id : Nat
  username : String
  email : String
  referral_code : String
  referred_by : Option String
  deriving Repr, DecidableEq

structure Investment where
  id : Nat
  user_id : Nat
  amount : ℚ
  plan : String
  start_date : Nat
  last_payout : Option Nat
  active : Bool
  deriving Repr, DecidableEq

structure Transaction where
  id : Nat
  user_id : Nat
  amount : ℚ
  type : String
  status : String
  payment_method : Option String
  reference : String
  created_at : Nat
  completed_at : Option Nat
  deriving Repr, DecidableEq

structure Payout where
  investment_id : Nat
  amount : ℚ
  payout_date : Nat
  deriving Repr, DecidableEq

structure LedgerState where
  users : List User
  investments : List Investment
  transactions : List Transaction
  payouts : List Payout
  next_user_id : Nat
  next_inv_id : Nat
  next_tx_id : Nat
  rng : Nat
  deriving Repr, DecidableEq

/-- Fresh hex token: secrets.token_hex modelled as rendering the rng counter. -/
def token_hex (n : Nat) : String := toString n

/-- Referral-code generation: str(uuid.uuid4())[:8].upper() modelled as a
fresh counter rendering. -/
def generate_referral_code (n : Nat) : String := "RC" ++ toString n

/-- calculate_weekly_payout: investment.amount * 0.01 (1 percent weekly). -/
def calculate_weekly_payout (investment : Investment) : ℚ :=
  investment.amount * 0.01

/-- The due test of process_weekly_payouts:
last_payout = investment.last_payout or investment.start_date;
datetime.utcnow() >= last_payout + timedelta(days=7). -/
def is_due (now : Nat) (inv : Investment) : Bool :=
  decide (inv.last_payout.getD inv.start_date + 7 * 86400 ≤ now)

/-- Body of the per-investment branch of process_weekly_payouts: when the
investment is due, add a Payout row, set last_payout = now on the investment,
and add a completed payout Transaction for the investment owner. -/
def payout_step (now : Nat) (s : LedgerState) (inv : Investment) : LedgerState :=
  if is_due now inv then
    let payout_amount := calculate_weekly_payout inv
    { s with
      payouts := s.payouts ++
        [{ investment_id := inv.id, amount := payout_amount, payout_date := now }],
      investments := s.investments.map (fun j =>
        if j.id == inv.id then { j with last_payout := some now } else j),
      transactions := s.transactions ++
        [{ id := s.next_tx_id, user_id := inv.user_id, amount := payout_amount,
           type := "payout", status := "completed", payment_method := none,
           reference := "PYT-" ++ token_hex s.rng, created_at := now,
           completed_at := none }],
      next_tx_id := s.next_tx_id + 1,
      rng := s.rng + 1 }
  else s

/-- process_weekly_payouts: scan the snapshot of investments with
active = true and apply payout_step to each. -/
def process_weekly_payouts (now : Nat) (s : LedgerState) : LedgerState :=
  (s.investments.filter (fun i => i.active)).foldl (payout_step now) s

inductive RegistrationError where
  | missingFields
  | duplicateUsername
  | duplicateEmail
  deriving Repr, DecidableEq

/-- The register route, reduced to the ledger core: uniqueness checks on
username and email, referral-code generation, and referred_by stored verbatim
(None when the submitted code is empty).  Password hashing, phone and session
handling are outside the core. -/
def register (s : LedgerState) (username email referral_code_input : String) :
    Except RegistrationError LedgerState :=
  if username = "" ∨ email = "" then .error .missingFields
  else if s.users.any (fun u => u.username == username) then .error .duplicateUsername
  else if s.users.any (fun u => u.email == email) then .error .duplicateEmail
  else .ok { s with
    users := s.users ++
      [{ id := s.next_user_id, username := username, email := email,
         referral_code := generate_referral_code s.rng,
         referred_by := if referral_code_input = "" then none
                        else some referral_code_input }],
    next_user_id := s.next_user_id + 1,
    rng := s.rng + 1 }

inductive InvestError where
  | invalidPlan
  deriving Repr, DecidableEq

/-- valid_plans dictionary of the invest route. -/
def valid_plans : List (String × ℚ) := [("5", 5), ("10", 10), ("20", 20), ("50", 50)]

/-- The invest route: validate the plan, create an Investment (active = true,
last_payout = none from creation) and a linked pending deposit Transaction. -/
def invest (s : LedgerState) (caller : Nat) (plan : String) (amount : ℚ)
    (now : Nat) : Except InvestError LedgerState :=
  match valid_plans.lookup plan with
  | none => .error .invalidPlan
  | some v =>
    if amount ≠ v then .error .invalidPlan
    else .ok { s with
      investments := s.investments ++
        [{ id := s.next_inv_id, user_id := caller, amount := amount, plan := plan,
           start_date := now, last_payout := none, active := true }],
      transactions := s.transactions ++
        [{ id := s.next_tx_id, user_id := caller, amount := amount,
           type := "deposit", status := "pending", payment_method := some "pending",
           reference := "INV-" ++ token_hex s.rng, created_at := now,
           completed_at := none }],
      next_inv_id := s.next_inv_id + 1,
      next_tx_id := s.next_tx_id + 1,
      rng := s.rng + 1 }

inductive DepositError where
  | notFound
  | invalidTransactionState
  | unsupportedPaymentMethod
  deriving Repr, DecidableEq

/-- The completion update applied to the deposit transaction row. -/
def mark_completed (txid : Nat) (method : String) (now : Nat)
    (x : Transaction) : Transaction :=
  if x.id == txid then
    { x with status := "completed", payment_method := some method,
             completed_at := some now }
  else x

/-- Referral block of the payment route: if the caller has a truthy
referred_by code that resolves to an existing referral_code, emit one
completed referral Transaction of 5 percent of the deposit for the referrer;
otherwise emit nothing.  The caller lookup cannot fail for a logged-in user;
the none branch is unreachable in the routes. -/
def referral_bonus_txs (s : LedgerState) (caller : Nat) (deposit_amount : ℚ)
    (now : Nat) : List Transaction :=
  match s.users.find? (fun u => u.id == caller) with
  | none => []
  | some u =>
    match u.referred_by with
    | none => []
    | some code =>
      if code = "" then []
      else
        match s.users.find? (fun r => r.referral_code == code) with
        | none => []
        | some referrer =>
          [{ id := s.next_tx_id, user_id := referrer.id,
             amount := deposit_amount * 0.05,
             type := "referral", status := "completed",
             payment_method := some "system",
             reference := "REF-" ++ token_hex s.rng, created_at := now,
             completed_at := none }]

/-- The payment route (deposit completion): Transaction.query.get_or_404 is
the notFound error; the ownership/type/status guard is the
invalidTransactionState error; the method guard is the
unsupportedPaymentMethod error.  On success the deposit row is marked
completed and the referral block runs in the same commit. -/
def complete_deposit (s : LedgerState) (caller : Nat) (txid : Nat)
    (method : String) (now : Nat) : Except DepositError LedgerState :=
  match s.transactions.find? (fun t => t.id == txid) with
  | none => .error .notFound
  | some t =>
    if t.user_id ≠ caller ∨ t.type ≠ "deposit" ∨ t.status ≠ "pending" then
      .error .invalidTransactionState
    else if ¬ (method = "visa" ∨ method = "mtn") then
      .error .unsupportedPaymentMethod
    else
      let bonus := referral_bonus_txs s caller t.amount now
      .ok { s with
        transactions := s.transactions.map (mark_completed txid method now) ++ bonus,
        next_tx_id := s.next_tx_id + bonus.length,
        rng := s.rng + bonus.length }

inductive WithdrawError where
  | invalidAmount
  | invalidMethod
  deriving Repr, DecidableEq

/-- The withdraw route POST branch: amount must be positive and the method
must be visa or mtn; no balance check of any kind; on success a pending
withdrawal Transaction with a WDR- reference is recorded. -/
def withdraw (s : LedgerState) (caller : Nat) (amount : ℚ) (method : String)
    (now : Nat) : Except WithdrawError LedgerState :=
  if amount ≤ 0 then .error .invalidAmount
  else if ¬ (method = "visa" ∨ method = "mtn") then .error .invalidMethod
  else .ok { s with
    transactions := s.transactions ++
      [{ id := s.next_tx_id, user_id := caller, amount := amount,
         type := "withdrawal", status := "pending",
         payment_method := some method,
         reference := "WDR-" ++ token_hex s.rng, created_at := now,
         completed_at := none }],
    next_tx_id := s.next_tx_id + 1,
    rng := s.rng + 1 }

/-- The balance aggregation of the withdraw route GET branch: sum of Payout
amounts joined to the investments of the user (investment id is the primary
key, so the join matches at most one investment row per payout), plus the sum
of completed referral Transaction amounts of the user.  Pure read. -/
def available_balance (s : LedgerState) (uid : Nat) : ℚ :=
  let user_payouts := s.payouts.filter (fun p =>
    s.investments.any (fun i => i.id == p.investment_id && i.user_id == uid))
  let total_payouts := (user_payouts.map (fun p => p.amount)).sum
  let referral_earnings := s.transactions.filter (fun t =>
    t.user_id == uid && t.type == "referral" && t.status == "completed")
  let total_referrals := (referral_earnings.map (fun t => t.amount)).sum
  total_payouts + total_referrals

/-- Outcome of a payout pass under fault injection: aborted carries the state
persisted by the per-investment commits that succeeded before the failure. -/
inductive PassOutcome where
  | ok (s : LedgerState)
  | aborted (s : LedgerState)
  deriving Repr, DecidableEq

/-- Fault-injected payout scan: `fails` marks the investments whose
db.session.commit raises a store error.  process_weekly_payouts and
payout_scheduler contain no try/except, so in the source the first such
exception discards the uncommitted writes of that investment and propagates,
terminating the scan (and the scheduler thread). -/
def payout_pass_faulty (fails : Nat → Bool) (now : Nat) :
    LedgerState → List Investment → PassOutcome
  | s, [] => .ok s
  | s, inv :: rest =>
    if is_due now inv then
      if fails inv.id then .aborted s
      else payout_pass_faulty fails now (payout_step now s inv) rest
    else payout_pass_faulty fails now s rest

/-- process_weekly_payouts under fault injection. -/
def process_weekly_payouts_faulty (fails : Nat → Bool) (now : Nat)
    (s : LedgerState) : PassOutcome :=
  payout_pass_faulty fails now s (s.investments.filter (fun i => i.active))

/-- The empty store right after db.create_all. -/
def init : LedgerState :=
  { users := [], investments := [], transactions := [], payouts := [],
    next_user_id := 1, next_inv_id := 1, next_tx_id := 1, rng := 0 }

/-- Reachable state for the payout-before-completion scenario: a user
registers with no referral code, opens a 10-unit investment at time 0
(deposit transaction left pending), and the payout engine runs at time
604800 (7 days). -/
def c1_state : LedgerState :=
  match register init "alice" "alice@example.com" "" with
  | .ok s1 =>
    match invest s1 1 "10" 10 0 with
    | .ok s2 => process_weekly_payouts 604800 s2
    | .error _ => init
  | .error _ => init

/-- An active investment with a still-pending deposit, for witnesses. -/
def c1w_inv : Investment :=
  { id := 1, user_id := 1, amount := 10, plan := "10", start_date := 0,
    last_payout := none, active := true }

/-- The pending deposit transaction linked to c1w_inv. -/
def c1w_tx : Transaction :=
  { id := 1, user_id := 1, amount := 10, type := "deposit", status := "pending",
    payment_method := some "pending", reference := "INV-0", created_at := 0,
    completed_at := none }

/-- State holding c1w_inv with its deposit still pending. -/
def c1w_state : LedgerState :=
  { init with
    investments := [c1w_inv], transactions := [c1w_tx],
    next_inv_id := 2, next_tx_id := 2, rng := 1 }

/-- A referrer whose code ABC123 is used by c5_referee. -/
def c5_referrer : User :=
  { id := 1, username := "ref", email := "ref@example.com",
    referral_code := "ABC123", referred_by := none }

/-- A referee registered with referred_by = ABC123. -/
def c5_referee : User :=
  { id := 2, username := "bob", email := "bob@example.com",
    referral_code := "RC1", referred_by := some "ABC123" }

/-- A referral bonus already earned from an earlier completed deposit. -/
def c5_prior : Transaction :=
  { id := 1, user_id := 1, amount := 1, type := "referral",
    status := "completed", payment_method := some "system",
    reference := "REF-0", created_at := 0, completed_at := none }

/-- A second pending 20-unit deposit by the referee. -/
def c5_deposit : Transaction :=
  { id := 2, user_id := 2, amount := 20, type := "deposit",
    status := "pending", payment_method := some "pending",
    reference := "INV-1", created_at := 0, completed_at := none }

/-- State in which the referee completes a second deposit. -/
def c5_state : LedgerState :=
  { init with
    users := [c5_referrer, c5_referee],
    transactions := [c5_prior, c5_deposit],
    next_user_id := 3, next_tx_id := 3, rng := 2 }

/-- A pending deposit by a user with no referrer. -/
def c7_tx : Transaction :=
  { id := 1, user_id := 1, amount := 10, type := "deposit",
    status := "pending", payment_method := some "pending",
    reference := "INV-0", created_at := 0, completed_at := none }

/-- State for exercising the deposit-completion guards. -/
def c7_state : LedgerState :=
  { init with
    users := [{ id := 1, username := "ann", email := "ann@example.com",
                referral_code := "RC9", referred_by := none }],
    transactions := [c7_tx],
    next_user_id := 2, next_tx_id := 2, rng := 1 }

/-- First of two due investments for the fault-injection scenario. -/
def c8_inv1 : Investment :=
  { id := 1, user_id := 1, amount := 10, plan := "10", start_date := 0,
    last_payout := none, active := true }

/-- Second due investment, behind the failing one in scan order. -/
def c8_inv2 : Investment :=
  { id := 2, user_id := 2, amount := 20, plan := "20", start_date := 0,
    last_payout := none, active := true }

/-- State with two due active investments. -/
def c8_state : LedgerState :=
  { init with investments := [c8_inv1, c8_inv2], next_inv_id := 3 }

/-- Investment of the balance-aggregation example owner. -/
def c6_inv : Investment :=
  { id := 1, user_id := 1, amount := 10, plan := "10", start_date := 0,
    last_payout := some 604800, active := true }

/-- Completed referral earning of 0.5 for the example owner. -/
def c6_ref : Transaction :=
  { id := 1, user_id := 1, amount := 0.5, type := "referral",
    status := "completed", payment_method := some "system",
    reference := "REF-0", created_at := 0, completed_at := none }

/-- A pending withdrawal recorded for the example owner. -/
def c6_wd : Transaction :=
  { id := 2, user_id := 1, amount := 5, type := "withdrawal",
    status := "pending", payment_method := some "visa",
    reference := "WDR-1", created_at := 0, completed_at := none }

/-- A completed withdrawal recorded for the example owner. -/
def c6_wd2 : Transaction :=
  { id := 3, user_id := 1, amount := 2, type := "withdrawal",
    status := "completed", payment_method := some "mtn",
    reference := "WDR-2", created_at := 0, completed_at := some 5 }

/-- Balance-aggregation example state: payouts of 0.3 and 0.2 plus a
referral of 0.5 and a pending withdrawal. -/
def c6_state : LedgerState :=
  { init with
    investments := [c6_inv],
    transactions := [c6_ref, c6_wd],
    payouts := [{ investment_id := 1, amount := 0.3, payout_date := 100 },
                { investment_id := 1, amount := 0.2, payout_date := 200 }],
    next_inv_id := 2, next_tx_id := 3, rng := 2 }

/-- A 50-unit investment, 20 days old and never paid, for witnesses. -/
def c4_inv : Investment :=
  { id := 1, user_id := 1, amount := 50, plan := "50", start_date := 0,
    last_payout := none, active := true }

/-- State holding only c4_inv. -/
def c4_state : LedgerState :=
  { init with investments := [c4_inv], next_inv_id := 2 }

/-- find? commutes with a map that preserves the predicate. -/
theorem find_map_of_pres {α : Type} (f : α → α) (p : α → Bool) (l : List α)
    (h : ∀ x, p (f x) = p x) : (l.map f).find? p = (l.find? p).map f := by
  induction l with
  | nil => rfl
  | cons x xs ih =>
    by_cases hx : p x
    · simp [List.find?_cons, h x, hx]
    · rw [Bool.not_eq_true] at hx
      simp only [List.map_cons, List.find?_cons, h x, hx]
      exact ih

/-- filter after map pushes through the map. -/
theorem filter_of_map {α β : Type} (f : α → β) (p : β → Bool) (l : List α) :
    (l.map f).filter p = (l.filter (fun x => p (f x))).map f := by
  induction l with
  | nil => rfl
  | cons x xs ih =>
    by_cases hx : p (f x) <;> simp [List.filter_cons, hx, ih]

/-- countP is invariant under a map that preserves the predicate. -/
theorem countP_map_of_pres {α : Type} (f : α → α) (p : α → Bool) (l : List α)
    (h : ∀ x, p (f x) = p x) : (l.map f).countP p = l.countP p := by
  induction l with
  | nil => rfl
  | cons x xs ih => simp [List.countP_cons, h x, ih]

/-- In a list of investments with pairwise distinct ids, the first hit for the
id of a member is that member itself. -/
theorem find_id_of_nodup (l : List Investment) (inv : Investment)
    (hnd : (l.map (fun i => i.id)).Nodup) (hmem : inv ∈ l) :
    l.find? (fun j => j.id == inv.id) = some inv := by
  induction l with
  | nil => cases hmem
  | cons x xs ih =>
    simp only [List.map_cons, List.nodup_cons] at hnd
    rcases List.mem_cons.mp hmem with rfl | hmem'
    · simp [List.find?_cons]
    · have hx : (x.id == inv.id) = false := by
        apply beq_eq_false_iff_ne.mpr
        intro hcontra
        exact hnd.1 (hcontra ▸ List.mem_map_of_mem (fun i => i.id) hmem')
      simp only [List.find?_cons, hx]
      exact ih hnd.2 hmem'

/-- Filtering a nodup-id list by a predicate that forces the id of a fixed member
keeps exactly that member, provided the member satisfies the predicate. -/
theorem filter_q_unique (l : List Investment) (inv : Investment)
    (q : Investment → Bool) (hnd : (l.map (fun i => i.id)).Nodup)
    (hmem : inv ∈ l) (hq : q inv = true)
    (hid : ∀ j, q j = true → j.id = inv.id) :
    l.filter q = [inv] := by
  induction l with
  | nil => cases hmem
  | cons x xs ih =>
    simp only [List.map_cons, List.nodup_cons] at hnd
    rcases List.mem_cons.mp hmem with rfl | hmem'
    · rw [List.filter_cons, if_pos hq]
      have hnil : xs.filter q = [] := by
        apply List.filter_eq_nil_iff.mpr
        intro a ha hqa
        exact hnd.1 ((hid a hqa) ▸ List.mem_map_of_mem (fun i => i.id) ha)
      rw [hnil]
    · have hx : q x = false := by
        cases hqx : q x with
        | false => rfl
        | true =>
          exfalso
          exact hnd.1 ((hid x hqx) ▸ List.mem_map_of_mem (fun i => i.id) hmem')
      rw [List.filter_cons, hx, if_neg (by simp)]
      exact ih hnd.2 hmem'

/-- The payout pass appends exactly one Payout row per due investment of the
scanned snapshot, in scan order; Payout rows depend on nothing else. -/
theorem payouts_of_fold (now : Nat) (L : List Investment) (s : LedgerState) :
    (L.foldl (payout_step now) s).payouts
      = s.payouts ++ (L.filter (is_due now)).map
          (fun j => { investment_id := j.id,
                      amount := calculate_weekly_payout j,
                      payout_date := now }) := by
  induction L generalizing s with
  | nil => simp
  | cons j L ih =>
    by_cases hd : is_due now j
    · rw [List.foldl_cons, ih, List.filter_cons, if_pos hd]
      simp [payout_step, hd]
    · rw [List.foldl_cons, ih, List.filter_cons, if_neg hd]
      simp [payout_step, hd]

/-- The payout pass updates last_payout to now on exactly the investments
whose id matches a due member of the scanned snapshot. -/
theorem investments_of_fold (now : Nat) (L : List Investment) (s : LedgerState) :
    (L.foldl (payout_step now) s).investments
      = s.investments.map (fun x =>
          if (L.filter (is_due now)).any (fun j => j.id == x.id)
          then { x with last_payout := some now } else x) := by
  induction L generalizing s with
  | nil => simp
  | cons j L ih =>
    by_cases hd : is_due now j
    · rw [List.foldl_cons, ih, List.filter_cons, if_pos hd]
      simp only [payout_step, if_pos hd, List.map_map]
      apply List.map_congr_left
      intro x _
      simp only [Function.comp]
      by_cases hx : j.id = x.id
      · have hx1 : (x.id == j.id) = true := by simp [hx.symm]
        have hx2 : (j.id == x.id) = true := by simp [hx]
        simp [hx1, hx2, List.any_cons]
      · have hx1 : (x.id == j.id) = false := by simp; omega
        have hx2 : (j.id == x.id) = false := by simp [hx]
        simp [hx1, hx2, List.any_cons]
    · rw [List.foldl_cons, ih, List.filter_cons, if_neg hd]
      simp [payout_step, hd]

/-- The payout pass adds, for each user, exactly one completed payout
Transaction per due investment of that user in the scanned snapshot. -/
theorem txcount_of_fold (now : Nat) (u : Nat) (L : List Investment) (s : LedgerState) :
    ((L.foldl (payout_step now) s).transactions.countP
        (fun t => t.type == "payout" && t.status == "completed" && t.user_id == u))
      = s.transactions.countP
          (fun t => t.type == "payout" && t.status == "completed" && t.user_id == u)
        + (L.filter (fun j => is_due now j && j.user_id == u)).length := by
  induction L generalizing s with
  | nil => simp
  | cons j L ih =>
    by_cases hd : is_due now j
    · rw [List.foldl_cons, ih, List.filter_cons]
      simp only [payout_step, if_pos hd, List.countP_append, hd, Bool.true_and]
      by_cases hu : j.user_id = u
      · simp [List.countP_cons, hu]
        omega
      · have : (j.user_id == u) = false := by simp [hu]
        simp [List.countP_cons, this]
    · rw [List.foldl_cons, ih, List.filter_cons]
      have : (is_due now j && j.user_id == u) = false := by simp [hd]
      simp [payout_step, hd, this]

/-- A scan over investments none of which is due leaves the state unchanged. -/
theorem fold_id_of_not_due (now : Nat) (L : List Investment) (s : LedgerState)
    (h : ∀ j ∈ L, is_due now j = false) : L.foldl (payout_step now) s = s := by
  induction L generalizing s with
  | nil => rfl
  | cons j L ih =>
    rw [List.foldl_cons, payout_step, if_neg (by simp [h j (List.mem_cons_self j L)])]
    exact ih s (fun x hx => h x (List.mem_cons_of_mem j hx))

/-- After a payout pass at time now, no active investment is still due at
now: the paid ones have last_payout = now, and an unpaid active one was
already not due when scanned. -/
theorem no_due_after (now : Nat) (s : LedgerState) :
    ∀ y ∈ (process_weekly_payouts now s).investments, y.active = true →
      is_due now y = false := by
  intro y hy hact
  rw [process_weekly_payouts, investments_of_fold] at hy
  rcases List.mem_map.mp hy with ⟨x, hxmem, hxeq⟩
  by_cases hcond :
      ((s.investments.filter (fun i => i.active)).filter (is_due now)).any
        (fun j => j.id == x.id)
  · rw [if_pos hcond] at hxeq
    subst hxeq
    simp [is_due]
  · rw [if_neg hcond] at hxeq
    subst hxeq
    by_cases hdue : is_due now x
    · exfalso
      apply hcond
      refine List.any_eq_true.mpr ⟨x, ?_, by simp⟩
      exact List.mem_filter.mpr ⟨List.mem_filter.mpr ⟨hxmem, hact⟩, hdue⟩
    · simpa using hdue

/-- A due active investment of a nodup-id store gets exactly one Payout row
appended by a pass, holding amount * 0.01 and timestamp now. -/
theorem payout_rows_for_investment (now : Nat) (s : LedgerState)
    (inv : Investment) (hnd : (s.investments.map (fun i => i.id)).Nodup)
    (hmem : inv ∈ s.investments) (hact : inv.active = true)
    (hdue : is_due now inv = true) :
    (process_weekly_payouts now s).payouts.filter
        (fun p => p.investment_id == inv.id)
      = s.payouts.filter (fun p => p.investment_id == inv.id)
        ++ [{ investment_id := inv.id, amount := calculate_weekly_payout inv,
              payout_date := now }] := by
  have hL : s.investments.filter
        (fun a => (a.id == inv.id && is_due now a) && a.active) = [inv] := by
    apply filter_q_unique s.investments inv _ hnd hmem
    · simp [hdue, hact]
    · intro j hj
      simp only [Bool.and_eq_true, beq_iff_eq] at hj
      exact hj.1.1
  rw [process_weekly_payouts, payouts_of_fold, List.filter_append, filter_of_map]
  rw [List.filter_filter, List.filter_filter, hL]
  rfl

/-- C2: one payout cycle is idempotent at a fixed time value now: running
process_weekly_payouts a second time with the same now changes nothing — in
particular it creates no additional Payout, no payout Transaction and no
last_payout change for any investment paid by the first run. -/
theorem claim2_payout_idempotent (now : Nat) (s : LedgerState) :
    process_weekly_payouts now (process_weekly_payouts now s)
      = process_weekly_payouts now s := by
  rw [process_weekly_payouts]
  apply fold_id_of_not_due
  intro j hj
  have hj' := List.mem_filter.mp hj
  exact no_due_after now s j hj'.1 hj'.2

/-- C3: the due test of the payout engine is exactly
now >= (last_payout if set, else start_date) + 7 days; with no prior payout
and start_date = T an investment is not due at T + 6d 23:59:59 and is due at
T + 7d. -/
theorem claim3_weekly_boundary :
    (∀ (i u : Nat) (a : ℚ) (pl : String) (sd : Nat) (lp : Option Nat)
        (act : Bool) (now : Nat),
      is_due now { id := i, user_id := u, amount := a, plan := pl,
                   start_date := sd, last_payout := lp, active := act }
        = decide (lp.getD sd + 7 * 86400 ≤ now))
    ∧ (∀ (i u : Nat) (a : ℚ) (pl : String) (act : Bool) (T : Nat),
      is_due (T + 604799) { id := i, user_id := u, amount := a, plan := pl,
                            start_date := T, last_payout := none, active := act }
          = false
      ∧ is_due (T + 604800) { id := i, user_id := u, amount := a, plan := pl,
                              start_date := T, last_payout := none, active := act }
          = true) := by
  constructor
  · intro i u a pl sd lp act now
    rfl
  · intro i u a pl act T
    constructor
    · simp [is_due]
    · simp [is_due]

/-- C9: the weekly payout amount is exactly amount * 0.01 as an exact
rational, with no rounding: principals 5, 10, 20, 50 yield exactly 0.05,
0.1, 0.2, 0.5. -/
theorem claim9_payout_amount :
    (∀ inv : Investment, calculate_weekly_payout inv = inv.amount * (1 / 100))
    ∧ calculate_weekly_payout ⟨1, 1, 5, "5", 0, none, true⟩ = 5 / 100
    ∧ calculate_weekly_payout ⟨1, 1, 10, "10", 0, none, true⟩ = 1 / 10
    ∧ calculate_weekly_payout ⟨1, 1, 20, "20", 0, none, true⟩ = 1 / 5
    ∧ calculate_weekly_payout ⟨1, 1, 50, "50", 0, none, true⟩ = 1 / 2 := by
  refine ⟨fun inv => ?_, by norm_num [calculate_weekly_payout],
    by norm_num [calculate_weekly_payout], by norm_num [calculate_weekly_payout],
    by norm_num [calculate_weekly_payout]⟩
  norm_num [calculate_weekly_payout]

/-- C4: one payout-cycle pass applies at most one payout per investment and
never backfills: for a due active investment (however many 7-day windows have
elapsed), a single pass appends exactly one Payout of principal * 0.01 for
it, sets its last_payout to now, and adds exactly one completed payout
Transaction per due active investment of its owner. -/
theorem claim4_single_payout (now : Nat) (s : LedgerState) (inv : Investment)
    (hnd : (s.investments.map (fun i => i.id)).Nodup)
    (hmem : inv ∈ s.investments) (hact : inv.active = true)
    (hdue : is_due now inv = true) :
    ((process_weekly_payouts now s).payouts.filter
        (fun p => p.investment_id == inv.id)
      = s.payouts.filter (fun p => p.investment_id == inv.id)
        ++ [{ investment_id := inv.id, amount := calculate_weekly_payout inv,
              payout_date := now }])
    ∧ ((process_weekly_payouts now s).investments.find? (fun j => j.id == inv.id)
        = some { inv with last_payout := some now })
    ∧ ((process_weekly_payouts now s).transactions.countP
          (fun t => t.type == "payout" && t.status == "completed"
                    && t.user_id == inv.user_id)
        = s.transactions.countP
            (fun t => t.type == "payout" && t.status == "completed"
                      && t.user_id == inv.user_id)
          + (s.investments.filter
              (fun j => j.active && (is_due now j && j.user_id == inv.user_id))).length) := by
  refine ⟨?_, ?_, ?_⟩
  · exact payout_rows_for_investment now s inv hnd hmem hact hdue
  · rw [process_weekly_payouts, investments_of_fold]
    rw [find_map_of_pres _ _ _ (fun x => by split <;> rfl)]
    rw [find_id_of_nodup s.investments inv hnd hmem]
    simp only [Option.map_some']
    have : ((s.investments.filter (fun i => i.active)).filter (is_due now)).any
        (fun j => j.id == inv.id) = true := by
      refine List.any_eq_true.mpr ⟨inv, ?_, by simp⟩
      exact List.mem_filter.mpr ⟨List.mem_filter.mpr ⟨hmem, hact⟩, hdue⟩
    rw [if_pos this]
  · rw [process_weekly_payouts, txcount_of_fold, List.filter_filter]
    have hfun : (fun a => (is_due now a && a.user_id == inv.user_id) && a.active)
        = (fun j : Investment => j.active && (is_due now j && j.user_id == inv.user_id)) := by
      funext a
      exact Bool.and_comm _ _
    rw [hfun]

/-- C1 counterexample: in the reachable state c1_state (register, invest a
10-unit plan at time 0, run the payout engine at 7 days) a Payout exists for
investment 1 while its only deposit transaction is still pending: the engine
never consults deposit status. -/
theorem claim1_counterexample :
    c1_state.payouts.length = 1
    ∧ (c1_state.transactions.filter (fun t => t.type == "deposit")).map
        (fun t => t.status) = ["pending"]
    ∧ c1_state.payouts.map (fun p => p.investment_id) = [1]
    ∧ c1_state.investments.map (fun i => (i.id, i.active)) = [(1, true)] := by
  exact ⟨by decide, by decide, by decide, by decide⟩

/-- C1 amended: payout eligibility is independent of the transaction ledger,
hence of deposit status: the payout rows produced by a pass are unchanged
under any replacement of the transaction list, and a due active investment
receives exactly one Payout even while its linked deposit is still pending. -/
theorem claim1_amended (now : Nat) (s : LedgerState) (T T' : List Transaction)
    (inv : Investment) (hnd : (s.investments.map (fun i => i.id)).Nodup)
    (hmem : inv ∈ s.investments) (hact : inv.active = true)
    (hdue : is_due now inv = true) :
    ((process_weekly_payouts now { s with transactions := T }).payouts
      = (process_weekly_payouts now { s with transactions := T' }).payouts)
    ∧ (process_weekly_payouts now s).payouts.countP
          (fun p => p.investment_id == inv.id)
      = s.payouts.countP (fun p => p.investment_id == inv.id) + 1 := by
  constructor
  · rw [process_weekly_payouts, process_weekly_payouts, payouts_of_fold,
      payouts_of_fold]
  · rw [List.countP_eq_length_filter, List.countP_eq_length_filter,
      payout_rows_for_investment now s inv hnd hmem hact hdue,
      List.length_append]
    rfl

/-- Witness for claim1_amended at a concrete pending-deposit state. -/
theorem claim1_amended_witness :
    ((process_weekly_payouts 604800 { c1w_state with transactions := [c1w_tx] }).payouts
      = (process_weekly_payouts 604800 { c1w_state with transactions := [] }).payouts)
    ∧ (process_weekly_payouts 604800 c1w_state).payouts.countP
          (fun p => p.investment_id == c1w_inv.id)
      = c1w_state.payouts.countP (fun p => p.investment_id == c1w_inv.id) + 1 :=
  claim1_amended 604800 c1w_state [c1w_tx] [] c1w_inv (by decide)
    (by with_unfolding_all decide) (by decide) (by decide)

/-- C5: completing a pending deposit emits exactly one completed referral
Transaction of 5 percent of the deposit, paid by the system method to the
resolved referrer, whenever the referred_by code of the depositor resolves; when
referred_by is unset or resolves to no user, no referral transaction is
created and no error occurs.  The statement quantifies over any state
meeting the guards, so the bonus fires on every completed deposit, not only
the first. -/
theorem claim5_referral_bonus (s : LedgerState) (caller txid : Nat)
    (method : String) (now : Nat) (t : Transaction) (u : User)
    (hfind : s.transactions.find? (fun x => x.id == txid) = some t)
    (hown : t.user_id = caller) (htype : t.type = "deposit")
    (hstat : t.status = "pending")
    (hmeth : method = "visa" ∨ method = "mtn")
    (huser : s.users.find? (fun x => x.id == caller) = some u) :
    (∀ code r, u.referred_by = some code → code ≠ "" →
      s.users.find? (fun x => x.referral_code == code) = some r →
      complete_deposit s caller txid method now
        = Except.ok { s with
            transactions := s.transactions.map (mark_completed txid method now)
              ++ [{ id := s.next_tx_id, user_id := r.id,
                    amount := t.amount * 0.05, type := "referral",
                    status := "completed", payment_method := some "system",
                    reference := "REF-" ++ token_hex s.rng, created_at := now,
                    completed_at := none }],
            next_tx_id := s.next_tx_id + 1, rng := s.rng + 1 }
      ∧ (s.transactions.map (mark_completed txid method now)
            ++ referral_bonus_txs s caller t.amount now).countP
            (fun x => x.type == "referral" && x.user_id == r.id)
          = s.transactions.countP
              (fun x => x.type == "referral" && x.user_id == r.id) + 1)
    ∧ (u.referred_by = none →
        complete_deposit s caller txid method now
          = Except.ok { s with
              transactions := s.transactions.map (mark_completed txid method now) })
    ∧ (∀ code, u.referred_by = some code →
        s.users.find? (fun x => x.referral_code == code) = none →
        complete_deposit s caller txid method now
          = Except.ok { s with
              transactions := s.transactions.map (mark_completed txid method now) }) := by
  have hcond : ¬ (t.user_id ≠ caller ∨ t.type ≠ "deposit" ∨ t.status ≠ "pending") := by
    push_neg
    exact ⟨hown, htype, hstat⟩
  refine ⟨?_, ?_, ?_⟩
  · intro code r hcode hne hres
    have hbonus : referral_bonus_txs s caller t.amount now
        = [{ id := s.next_tx_id, user_id := r.id, amount := t.amount * 0.05,
             type := "referral", status := "completed",
             payment_method := some "system",
             reference := "REF-" ++ token_hex s.rng, created_at := now,
             completed_at := none }] := by
      simp only [referral_bonus_txs, huser, hcode, hne, if_false]
      rw [hres]
    constructor
    · simp only [complete_deposit, hfind]
      rw [if_neg hcond, if_neg (not_not_intro hmeth)]
      rw [hbonus]
      simp
    · rw [hbonus, List.countP_append]
      rw [countP_map_of_pres _ _ _
        (fun x => by simp only [mark_completed]; split <;> rfl)]
      simp [List.countP_cons]
  · intro hnone
    have hbonus : referral_bonus_txs s caller t.amount now = [] := by
      simp only [referral_bonus_txs, huser, hnone]
    simp only [complete_deposit, hfind]
    rw [if_neg hcond, if_neg (not_not_intro hmeth)]
    rw [hbonus]
    simp
  · intro code hcode hres
    have hbonus : referral_bonus_txs s caller t.amount now = [] := by
      by_cases hne : code = ""
      · simp only [referral_bonus_txs, huser, hcode, hne, if_true]
      · simp only [referral_bonus_txs, huser, hcode, hne, if_false]
        rw [hres]
    simp only [complete_deposit, hfind]
    rw [if_neg hcond, if_neg (not_not_intro hmeth)]
    rw [hbonus]
    simp

/-- Witness for claim5_referral_bonus: a second completed deposit of 20 via
visa by a referred user yields one more referral transaction of exactly 1.0
for the referrer. -/
theorem claim5_referral_bonus_witness :
    complete_deposit c5_state 2 2 "visa" 100
      = Except.ok { c5_state with
          transactions := c5_state.transactions.map (mark_completed 2 "visa" 100)
            ++ [{ id := c5_state.next_tx_id, user_id := c5_referrer.id,
                  amount := c5_deposit.amount * 0.05, type := "referral",
                  status := "completed", payment_method := some "system",
                  reference := "REF-" ++ token_hex c5_state.rng,
                  created_at := 100, completed_at := none }],
          next_tx_id := c5_state.next_tx_id + 1, rng := c5_state.rng + 1 }
    ∧ (c5_state.transactions.map (mark_completed 2 "visa" 100)
          ++ referral_bonus_txs c5_state 2 c5_deposit.amount 100).countP
          (fun x => x.type == "referral" && x.user_id == c5_referrer.id)
        = c5_state.transactions.countP
            (fun x => x.type == "referral" && x.user_id == c5_referrer.id) + 1 :=
  (claim5_referral_bonus c5_state 2 2 "visa" 100 c5_deposit c5_referee
    rfl rfl rfl rfl (Or.inl rfl) rfl).1 "ABC123" c5_referrer rfl
    (by decide) rfl

/-- C7 amended: deposit completion fails with notFound (the HTTP 404 of
get_or_404) when the transaction id does not exist, with
invalidTransactionState when it exists but is not owned by the caller, not a
deposit, or not pending, with unsupportedPaymentMethod when the method is
outside {visa, mtn}; an error produces no state change, and on success the
transaction is marked completed with the chosen method and a completion
timestamp. -/
theorem claim7_complete_deposit (s : LedgerState) (caller txid : Nat)
    (method : String) (now : Nat) :
    (s.transactions.find? (fun x => x.id == txid) = none →
      complete_deposit s caller txid method now
        = Except.error DepositError.notFound)
    ∧ (∀ t, s.transactions.find? (fun x => x.id == txid) = some t →
        ¬ (t.user_id = caller ∧ t.type = "deposit" ∧ t.status = "pending") →
        complete_deposit s caller txid method now
          = Except.error DepositError.invalidTransactionState)
    ∧ (∀ t, s.transactions.find? (fun x => x.id == txid) = some t →
        (t.user_id = caller ∧ t.type = "deposit" ∧ t.status = "pending") →
        ¬ (method = "visa" ∨ method = "mtn") →
        complete_deposit s caller txid method now
          = Except.error DepositError.unsupportedPaymentMethod)
    ∧ (∀ t, s.transactions.find? (fun x => x.id == txid) = some t →
        (t.user_id = caller ∧ t.type = "deposit" ∧ t.status = "pending") →
        (method = "visa" ∨ method = "mtn") →
        complete_deposit s caller txid method now
          = Except.ok { s with
              transactions := s.transactions.map (mark_completed txid method now)
                ++ referral_bonus_txs s caller t.amount now,
              next_tx_id := s.next_tx_id
                + (referral_bonus_txs s caller t.amount now).length,
              rng := s.rng + (referral_bonus_txs s caller t.amount now).length }
        ∧ (s.transactions.map (mark_completed txid method now)
            ++ referral_bonus_txs s caller t.amount now).find?
              (fun x => x.id == txid)
          = some { t with
                   status := "completed", payment_method := some method,
                   completed_at := some now }) := by
  refine ⟨?_, ?_, ?_, ?_⟩
  · intro hnone
    simp only [complete_deposit, hnone]
  · intro t hfind hbad
    simp only [complete_deposit, hfind]
    rw [if_pos (by tauto)]
  · intro t hfind hok hbad
    simp only [complete_deposit, hfind]
    rw [if_neg (by push_neg; exact hok), if_pos hbad]
  · intro t hfind hok hmeth
    constructor
    · simp only [complete_deposit, hfind]
      rw [if_neg (by push_neg; exact hok), if_neg (not_not_intro hmeth)]
    · rw [List.find?_append]
      rw [find_map_of_pres _ _ _
        (fun x => by simp only [mark_completed]; split <;> rfl)]
      rw [hfind]
      have hid : (t.id == txid) = true := by
        have h2 := List.find?_some hfind
        exact h2
      simp only [Option.map_some', mark_completed, hid, if_true, Option.or_some]

/-- C7 counterexample to the original claim: completing a nonexistent
transaction id in the empty store fails with notFound (the
get_or_404 HTTP 404 path), which is a different outcome from
invalidTransactionState (the flashed invalid-payment-request path). -/
theorem claim7_counterexample :
    complete_deposit init 1 1 "visa" 0 = Except.error DepositError.notFound
    ∧ DepositError.notFound ≠ DepositError.invalidTransactionState := by
  exact ⟨rfl, by decide⟩

/-- Witness for claim7_complete_deposit: a valid pending deposit completed
with visa is marked completed with method and timestamp. -/
theorem claim7_complete_deposit_witness :
    complete_deposit c7_state 1 1 "visa" 50
      = Except.ok { c7_state with
          transactions := c7_state.transactions.map (mark_completed 1 "visa" 50)
            ++ referral_bonus_txs c7_state 1 c7_tx.amount 50,
          next_tx_id := c7_state.next_tx_id
            + (referral_bonus_txs c7_state 1 c7_tx.amount 50).length,
          rng := c7_state.rng
            + (referral_bonus_txs c7_state 1 c7_tx.amount 50).length }
    ∧ (c7_state.transactions.map (mark_completed 1 "visa" 50)
        ++ referral_bonus_txs c7_state 1 c7_tx.amount 50).find?
          (fun x => x.id == 1)
      = some { c7_tx with
               status := "completed", payment_method := some "visa",
               completed_at := some 50 } :=
  (claim7_complete_deposit c7_state 1 1 "visa" 50).2.2.2 c7_tx rfl
    ⟨rfl, rfl, rfl⟩ (Or.inl rfl)

/-- Witness for claim4_single_payout: after 20 days without a run, one pass
pays the 50-unit investment exactly once, at the run time, not twice. -/
theorem claim4_single_payout_witness :
    ((process_weekly_payouts 1728000 c4_state).payouts.filter
        (fun p => p.investment_id == c4_inv.id)
      = c4_state.payouts.filter (fun p => p.investment_id == c4_inv.id)
        ++ [{ investment_id := c4_inv.id, amount := calculate_weekly_payout c4_inv,
              payout_date := 1728000 }])
    ∧ ((process_weekly_payouts 1728000 c4_state).investments.find?
          (fun j => j.id == c4_inv.id)
        = some { c4_inv with last_payout := some 1728000 })
    ∧ ((process_weekly_payouts 1728000 c4_state).transactions.countP
          (fun t => t.type == "payout" && t.status == "completed"
                    && t.user_id == c4_inv.user_id)
        = c4_state.transactions.countP
            (fun t => t.type == "payout" && t.status == "completed"
                      && t.user_id == c4_inv.user_id)
          + (c4_state.investments.filter
              (fun j => j.active && (is_due 1728000 j
                        && j.user_id == c4_inv.user_id))).length) :=
  claim4_single_payout 1728000 c4_state c4_inv (by decide)
    (by with_unfolding_all decide) (by decide) (by decide)

/-- C6: the available balance is the sum of the payout rows on investments
of the user plus the completed referral transactions of the user; it is a
pure function
of the store and is unchanged by recording withdrawal transactions, pending
or completed - withdrawals are never subtracted. -/
theorem claim6_available_balance (s : LedgerState) (uid : Nat) :
    (available_balance s uid
      = ((s.payouts.filter (fun p =>
            s.investments.any (fun i => i.id == p.investment_id && i.user_id == uid))).map
            (fun p => p.amount)).sum
        + ((s.transactions.filter (fun t =>
            t.user_id == uid && t.type == "referral" && t.status == "completed")).map
            (fun t => t.amount)).sum)
    ∧ (∀ t : Transaction, t.type = "withdrawal" →
        available_balance { s with transactions := s.transactions ++ [t] } uid
          = available_balance s uid)
    ∧ (∀ caller amount method now s',
        withdraw s caller amount method now = Except.ok s' →
        available_balance s' uid = available_balance s uid) := by
  have hpart2 : ∀ t : Transaction, t.type = "withdrawal" →
      available_balance { s with transactions := s.transactions ++ [t] } uid
        = available_balance s uid := by
    intro t ht
    have hfalse : (t.user_id == uid && t.type == "referral"
        && t.status == "completed") = false := by
      rw [ht]
      have : (("withdrawal" : String) == "referral") = false := by decide
      simp [this]
    simp only [available_balance, List.filter_append]
    rw [List.filter_cons, hfalse]
    simp
  refine ⟨rfl, hpart2, ?_⟩
  intro caller amount method now s' hw
  rw [withdraw] at hw
  by_cases h1 : amount ≤ 0
  · rw [if_pos h1] at hw
    simp at hw
  · rw [if_neg h1] at hw
    by_cases h2 : ¬ (method = "visa" ∨ method = "mtn")
    · rw [if_pos h2] at hw
      simp at hw
    · rw [if_neg h2] at hw
      have hrec : _ = s' := Except.ok.inj hw
      rw [← hrec]
      exact hpart2 _ rfl

/-- Witness for claim6_available_balance: the 0.3 + 0.2 + 0.5 example
balance is exactly 1 and stays 1 when a completed withdrawal is recorded. -/
theorem claim6_available_balance_witness :
    available_balance { c6_state with
        transactions := c6_state.transactions ++ [c6_wd2] } 1
      = available_balance c6_state 1
    ∧ available_balance c6_state 1 = 1 :=
  ⟨(claim6_available_balance c6_state 1).2.1 c6_wd2 rfl,
    by with_unfolding_all decide⟩

/-- C8: a store failure on the first due investment aborts the whole pass
with no state change, although the second investment is also due: the
fault-free pass would have paid both.  This contradicts the required
continue-on-failure behavior of the scheduler. -/
theorem claim8_failure_aborts :
    process_weekly_payouts_faulty (fun i => i == 1) 604800 c8_state
      = PassOutcome.aborted c8_state
    ∧ is_due 604800 c8_inv2 = true
    ∧ c8_state.payouts = []
    ∧ (process_weekly_payouts 604800 c8_state).payouts.length = 2 := by
  exact ⟨rfl, by decide, rfl, by decide⟩

/-- C10: a withdrawal request succeeds exactly when the amount is positive
and the method is visa or mtn; it records a pending withdrawal transaction
with a WDR- reference for the caller and never compares the amount with the
available balance, so a request exceeding the balance succeeds. -/
theorem claim10_withdraw (s : LedgerState) (caller : Nat) (amount : ℚ)
    (method : String) (now : Nat) :
    ((∃ s', withdraw s caller amount method now = Except.ok s')
      ↔ (0 < amount ∧ (method = "visa" ∨ method = "mtn")))
    ∧ (amount ≤ 0 →
        withdraw s caller amount method now
          = Except.error WithdrawError.invalidAmount)
    ∧ (0 < amount → ¬ (method = "visa" ∨ method = "mtn") →
        withdraw s caller amount method now
          = Except.error WithdrawError.invalidMethod)
    ∧ (0 < amount → (method = "visa" ∨ method = "mtn") →
        withdraw s caller amount method now
          = Except.ok { s with
              transactions := s.transactions ++
                [{ id := s.next_tx_id, user_id := caller, amount := amount,
                   type := "withdrawal", status := "pending",
                   payment_method := some method,
                   reference := "WDR-" ++ token_hex s.rng, created_at := now,
                   completed_at := none }],
              next_tx_id := s.next_tx_id + 1, rng := s.rng + 1 })
    ∧ (0 < amount → available_balance s caller < amount →
        (method = "visa" ∨ method = "mtn") →
        ∃ s', withdraw s caller amount method now = Except.ok s') := by
  have hok : 0 < amount → (method = "visa" ∨ method = "mtn") →
      withdraw s caller amount method now
        = Except.ok { s with
            transactions := s.transactions ++
              [{ id := s.next_tx_id, user_id := caller, amount := amount,
                 type := "withdrawal", status := "pending",
                 payment_method := some method,
                 reference := "WDR-" ++ token_hex s.rng, created_at := now,
                 completed_at := none }],
            next_tx_id := s.next_tx_id + 1, rng := s.rng + 1 } := by
    intro h1 h2
    rw [withdraw, if_neg (not_le.mpr h1), if_neg (not_not_intro h2)]
  refine ⟨⟨?_, ?_⟩, ?_, ?_, hok, ?_⟩
  · rintro ⟨s', hw⟩
    rw [withdraw] at hw
    by_cases h1 : amount ≤ 0
    · rw [if_pos h1] at hw
      simp at hw
    · by_cases h2 : ¬ (method = "visa" ∨ method = "mtn")
      · rw [if_neg h1, if_pos h2] at hw
        simp at hw
      · exact ⟨not_le.mp h1, not_not.mp h2⟩
  · rintro ⟨h1, h2⟩
    exact ⟨_, hok h1 h2⟩
  · intro h1
    rw [withdraw, if_pos h1]
  · intro h1 h2
    rw [withdraw, if_neg (not_le.mpr h1), if_pos h2]
  · intro h1 _ h2
    exact ⟨_, hok h1 h2⟩

/-- Witness for claim10_withdraw: with zero balance, a 100-unit withdrawal
request via visa succeeds and records a pending WDR- transaction. -/
theorem claim10_withdraw_witness :
    available_balance init 1 < 100
    ∧ withdraw init 1 100 "visa" 0
        = Except.ok { init with
            transactions := init.transactions ++
              [{ id := init.next_tx_id, user_id := 1, amount := 100,
                 type := "withdrawal", status := "pending",
                 payment_method := some "visa",
                 reference := "WDR-" ++ token_hex init.rng, created_at := 0,
                 completed_at := none }],
            next_tx_id := init.next_tx_id + 1, rng := init.rng + 1 } :=
  ⟨by with_unfolding_all decide,
    (claim10_withdraw init 1 100 "visa" 0).2.2.2.1
      (by norm_num) (Or.inl rfl)⟩
